import Mathlib

/-!
Verification of the nyx systemd-tray application core against its
specification.  The Python modules `nyxapp/models/service.py`,
`nyxapp/core/config_manager.py`, `nyxapp/utils/polkit_helper.py`,
`nyx/core/service_manager.py`, `nyx/core/notification_manager.py` and the
poll loop of `nyx/app.py` are shallowly embedded below.  Machine strings
are Lean strings (the systemctl vocabulary is ASCII, so Python
`str.lower` / `str.capitalize` agree with the ASCII case maps used here);
YAML scalars and collections are the inductive `YVal`; Python exceptions
are an explicit `PyError` in `Except`; file persistence is modelled by
passing the written YAML document to the loader.
-/

namespace Nyx

/-- YAML values as produced by `yaml.safe_load` (scalars, sequences and
string-keyed mappings; mappings keep insertion order, matching Python
dicts). -/
inductive YVal where
  | ynull : YVal
  | ybool (b : Bool) : YVal
  | yint (n : Int) : YVal
  | ystr (s : String) : YVal
  | ylist (l : List YVal) : YVal
  | ydict (entries : List (String × YVal)) : YVal

/-- Python truthiness of a YAML value (used by the loader for
the check that rejects an empty document). -/
def yFalsy : YVal → Bool
  | .ynull => true
  | .ybool b => !b
  | .yint n => n == 0
  | .ystr s => s == ""
  | .ylist l => l.isEmpty
  | .ydict m => m.isEmpty

/-- Lookup in a Python dict modelled as an insertion-ordered association
list with unique keys; `dictGet d k` is `d.get(k)`. -/
def dictGet : List (String × YVal) → String → Option YVal
  | [], _ => none
  | (k, v) :: rest, key => if k = key then some v else dictGet rest key

/-- Update-or-append assignment `d[k] = v` of a Python dict: an existing
key keeps its position, a new key is appended. -/
def dictSet : List (String × YVal) → String → YVal → List (String × YVal)
  | [], key, v => [(key, v)]
  | (k, w) :: rest, key, v =>
      if k = key then (k, v) :: rest else (k, w) :: dictSet rest key v

/-- Membership test `k in d` of a Python dict. -/
def dictHasKey : List (String × YVal) → String → Bool
  | [], _ => false
  | (k, _) :: rest, key => k == key || dictHasKey rest key

/-- Python exceptions that the embedded code can raise. -/
inductive PyError where
  | valueError (msg : String) : PyError
  | keyError : PyError
  | typeError : PyError
deriving DecidableEq

/-- Enumeration `ServiceStatus` of `nyxapp/models/service.py`. -/
inductive ServiceStatus where
  | active | inactive | failed | activating | deactivating | unknown
deriving DecidableEq

/-- Value string of each `ServiceStatus` enum member. -/
def ServiceStatus.value : ServiceStatus → String
  | .active => "active"
  | .inactive => "inactive"
  | .failed => "failed"
  | .activating => "activating"
  | .deactivating => "deactivating"
  | .unknown => "unknown"

/-- Python `str.lower` on ASCII text: every character lowercased. -/
def pyLower (s : String) : String :=
  String.mk (s.data.map Char.toLower)

/-- Embedding of `ServiceStatus.from_string`: the enum value lookup
`cls(status_str.lower())`, with the `ValueError` handler returning
`UNKNOWN` when the lowercased string is no member value. -/
def ServiceStatus.fromString (statusStr : String) : ServiceStatus :=
  let l := pyLower statusStr
  if l = "active" then .active
  else if l = "inactive" then .inactive
  else if l = "failed" then .failed
  else if l = "activating" then .activating
  else if l = "deactivating" then .deactivating
  else if l = "unknown" then .unknown
  else .unknown

/-- Python `str.capitalize` on ASCII text: first character uppercased,
the rest lowercased. -/
def pyCapitalize (s : String) : String :=
  match s.data with
  | [] => ""
  | c :: cs => String.mk (c.toUpper :: cs.map Char.toLower)

/-- Dataclass `ServiceConfig` of `nyxapp/models/service.py` (field order
as declared there). -/
structure ServiceConfig where
  name : String
  display_name : String
  icon : String
  icon_light : Option String
  icon_dark : Option String
  service_type : String
  auto_start : Bool
  enabled : Bool
deriving DecidableEq

/-- Construction of a `ServiceConfig` followed by `__post_init__`:
an empty name and a service type other than user/system raise
`ValueError`; an empty display name is replaced by the capitalized
name. -/
def mkServiceConfig (name display_name icon : String)
    (icon_light icon_dark : Option String) (service_type : String)
    (auto_start enabled : Bool) : Except PyError ServiceConfig :=
  if name = "" then
    .error (.valueError "Service name cannot be empty")
  else if service_type = "user" ∨ service_type = "system" then
    .ok { name, icon, icon_light, icon_dark, service_type, auto_start, enabled,
          display_name := if display_name = "" then pyCapitalize name else display_name }
  else
    .error (.valueError ("Invalid service_type: " ++ service_type ++ ". Must be user or system"))

/-- Embedding of `ServiceConfig.to_dict`: the six base keys in source
order, then `icon_light` and `icon_dark` only when truthy and different
from the base icon. -/
def ServiceConfig.toDict (s : ServiceConfig) : List (String × YVal) :=
  [("name", .ystr s.name),
   ("display_name", .ystr s.display_name),
   ("icon", .ystr s.icon),
   ("service_type", .ystr s.service_type),
   ("auto_start", .ybool s.auto_start),
   ("enabled", .ybool s.enabled)]
  ++ (match s.icon_light with
      | some v => if v ≠ "" ∧ v ≠ s.icon then [("icon_light", .ystr v)] else []
      | none => [])
  ++ (match s.icon_dark with
      | some v => if v ≠ "" ∧ v ≠ s.icon then [("icon_dark", .ystr v)] else []
      | none => [])

/-- Reading `d.get(k, dflt)` where the code stores a string (the
embedding keeps YAML fields at their declared types; an ill-typed value
is reported as a `TypeError`). -/
def getStrD (d : List (String × YVal)) (k : String) (dflt : String) :
    Except PyError String :=
  match dictGet d k with
  | none => .ok dflt
  | some (.ystr s) => .ok s
  | some _ => .error .typeError

/-- Reading `d.get(k)` for an optional string field; a missing key and a
YAML null both give Python `None`. -/
def getOptStr (d : List (String × YVal)) (k : String) :
    Except PyError (Option String) :=
  match dictGet d k with
  | none => .ok none
  | some .ynull => .ok none
  | some (.ystr s) => .ok (some s)
  | some _ => .error .typeError

/-- Reading `d.get(k, dflt)` where the code stores a boolean. -/
def getBoolD (d : List (String × YVal)) (k : String) (dflt : Bool) :
    Except PyError Bool :=
  match dictGet d k with
  | none => .ok dflt
  | some (.ybool b) => .ok b
  | some _ => .error .typeError

/-- Embedding of `ServiceConfig.from_dict`: `data["name"]` raises
`KeyError` when absent; every other field falls back to its default via
`data.get`; the constructor then validates as in `__post_init__`. -/
def ServiceConfig.fromDict (d : List (String × YVal)) :
    Except PyError ServiceConfig :=
  match dictGet d "name" with
  | none => .error .keyError
  | some nv =>
    match nv with
    | .ystr n => do
      let dn ← getStrD d "display_name" (pyCapitalize n)
      let ic ← getStrD d "icon" "application-x-executable"
      let il ← getOptStr d "icon_light"
      let idk ← getOptStr d "icon_dark"
      let st ← getStrD d "service_type" "user"
      let au ← getBoolD d "auto_start" false
      let en ← getBoolD d "enabled" true
      mkServiceConfig n dn ic il idk st au en
    | _ => .error .typeError

/-- In-memory state of `ConfigManager`: the ordered list of service
records and the settings dict. -/
structure Registry where
  services : List ServiceConfig
  settings : List (String × YVal)

/-- Default settings map of `ConfigManager._ensure_default_settings`
(DEFAULT_UPDATE_INTERVAL is 5 in `nyxapp/utils/constants.py`). -/
def defaultSettings : List (String × YVal) :=
  [("update_interval", .yint 5),
   ("show_notifications", .ybool true),
   ("minimize_to_tray", .ybool false),
   ("passwordless_mode", .ybool false),
   ("show_main_tray", .ybool true)]

/-- Embedding of `_ensure_default_settings`: each default key missing
from the settings dict is assigned its default value, in the order of
the defaults map. -/
def ensureDefaultSettings (settings : List (String × YVal)) :
    List (String × YVal) :=
  defaultSettings.foldl
    (fun st kv => if dictHasKey st kv.1 then st else dictSet st kv.1 kv.2)
    settings

/-- Registry produced by `_load_defaults`: no services, settings equal
to the defaults map. -/
def defaultRegistry : Registry :=
  { services := [], settings := ensureDefaultSettings [] }

/-- Embedding of `ConfigManager.add_service`: a record whose
`(name, service_type)` key is already present is rejected and the state
kept; otherwise the record is appended.  The boolean is the return
value of the Python method. -/
def addService (r : Registry) (s : ServiceConfig) : Bool × Registry :=
  if r.services.any (fun t => t.name == s.name && t.service_type == s.service_type) then
    (false, r)
  else
    (true, { r with services := r.services ++ [s] })

/-- Embedding of `ConfigManager.remove_service`: the services list is
replaced by its filtration, and the method reports whether the length
shrank. -/
def removeService (r : Registry) (serviceName serviceType : String) :
    Bool × Registry :=
  let ns := r.services.filter
    (fun s => !(s.name == serviceName && s.service_type == serviceType))
  (ns.length < r.services.length, { r with services := ns })

/-- Replacement of the first record matching the old key, as the
indexed loop of `ConfigManager.update_service` performs it. -/
def replaceFirst (l : List ServiceConfig) (oldName oldType : String)
    (upd : ServiceConfig) : Bool × List ServiceConfig :=
  match l with
  | [] => (false, [])
  | s :: rest =>
    if s.name == oldName && s.service_type == oldType then
      (true, upd :: rest)
    else
      let r := replaceFirst rest oldName oldType upd
      (r.1, s :: r.2)

/-- Embedding of `ConfigManager.update_service`. -/
def updateService (r : Registry) (oldName oldType : String)
    (upd : ServiceConfig) : Bool × Registry :=
  let res := replaceFirst r.services oldName oldType upd
  (res.1, { r with services := res.2 })

/-- Embedding of `ConfigManager.set_setting`. -/
def setSetting (r : Registry) (key : String) (v : YVal) : Registry :=
  { r with settings := dictSet r.settings key v }

/-- Embedding of `ConfigManager.get_setting`. -/
def getSetting (r : Registry) (key : String) (dflt : YVal) : YVal :=
  match dictGet r.settings key with
  | some v => v
  | none => dflt

/-- YAML document written by `ConfigManager.save_config` (the atomic
write-then-rename is modelled by handing this document to the
loader). -/
def saveConfig (r : Registry) : YVal :=
  .ydict [("version", .ystr "1.0"),
          ("services", .ylist (r.services.map (fun s => .ydict s.toDict))),
          ("settings", .ydict r.settings)]

/-- Structural checks of `ConfigManager._validate_config` on a document
already known to be a dict: `services`, when present, must be a list
and `settings`, when present, a dict (a missing `version` only logs a
warning). -/
def validateDict (d : List (String × YVal)) : Bool :=
  (match dictGet d "services" with
   | some (.ylist _) => true
   | some _ => false
   | none => true) &&
  (match dictGet d "settings" with
   | some (.ydict _) => true
   | some _ => false
   | none => true)

/-- Conversion of one entry of the `services` list: `from_dict` on a
dict, and the `except` handler of the loader treats any other shape,
like any other exception, as a skipped record. -/
def svcFromYVal : YVal → Except PyError ServiceConfig
  | .ydict d => ServiceConfig.fromDict d
  | _ => .error .typeError

/-- Outcome of opening and parsing the config file, the input of
`load_config`: the file may be missing, `yaml.safe_load` may raise, or
a document is produced. -/
inductive ParseOutcome where
  | missing : ParseOutcome
  | yamlError : ParseOutcome
  | value (v : YVal) : ParseOutcome

/-- Embedding of `ConfigManager.load_config`: a missing file, a parse
error, a falsy document and a document failing validation all load the
defaults and return failure; otherwise services that convert are kept
(failures skipped), settings are read and completed with defaults, and
the method returns success.  A non-dict document is exactly the
validation failure `Config must be a dictionary`. -/
def loadConfig (p : ParseOutcome) : Bool × Registry :=
  match p with
  | .missing => (false, defaultRegistry)
  | .yamlError => (false, defaultRegistry)
  | .value v =>
    if yFalsy v then (false, defaultRegistry)
    else
      match v with
      | .ydict d =>
        if validateDict d then
          let svcEntries := match dictGet d "services" with
            | some (.ylist l) => l
            | _ => []
          let settings := match dictGet d "settings" with
            | some (.ydict m) => m
            | _ => []
          (true,
           { services := svcEntries.filterMap (fun e => (svcFromYVal e).toOption),
             settings := ensureDefaultSettings settings })
        else (false, defaultRegistry)
      | _ => (false, defaultRegistry)

/-- Mutations of the registry named by the specification. -/
inductive Mutation where
  | add (s : ServiceConfig) : Mutation
  | remove (serviceName serviceType : String) : Mutation
  | update (oldName oldType : String) (upd : ServiceConfig) : Mutation
  | set (key : String) (v : YVal) : Mutation

/-- Application of a mutation to the in-memory registry. -/
def applyMutation (m : Mutation) (r : Registry) : Registry :=
  match m with
  | .add s => (addService r s).2
  | .remove n t => (removeService r n t).2
  | .update n t upd => (updateService r n t upd).2
  | .set k v => setSetting r k v

/-- Embedding of `PolkitHelper.is_passwordless_enabled`: when a config
manager is supplied, the cached `passwordless_mode` setting is returned
(under Python truthiness); only without one is the existence of the
polkit rule file consulted (an unreadable directory counts as
absent). -/
def isPasswordlessEnabled (configManager : Option Registry)
    (ruleFileExists : Bool) : Bool :=
  match configManager with
  | some r => !(yFalsy (getSetting r "passwordless_mode" (.ybool false)))
  | none => ruleFileExists

/-- Outcome of the `subprocess.run` call inside
`_execute_systemctl_action`: success, `TimeoutExpired`,
`CalledProcessError` carrying the captured stderr text, or any other
exception carrying its message. -/
inductive RunOutcome where
  | success : RunOutcome
  | timeout : RunOutcome
  | calledError (stderr : String) : RunOutcome
  | exc (msg : String) : RunOutcome

/-- Embedding of `ServiceManager._execute_systemctl_action`: the
command line is built by prepending `pkexec` exactly when the service
is system-scoped and passwordless mode is off, then `systemctl`,
`--user` for user services, the action and the unit name; the result
pair mirrors the Python `(success, error_message)` for each outcome of
the subprocess call. -/
def executeSystemctlAction (action serviceName : String)
    (isUserService : Bool) (configManager : Option Registry)
    (ruleFileExists : Bool) (outcome : RunOutcome) :
    List String × (Bool × Option String) :=
  let requiresPrivilege :=
    !isUserService && !(isPasswordlessEnabled configManager ruleFileExists)
  let cmd :=
    (if requiresPrivilege then ["pkexec"] else [])
    ++ ["systemctl"]
    ++ (if isUserService then ["--user"] else [])
    ++ [action, serviceName]
  let result : Bool × Option String :=
    match outcome with
    | .success => (true, none)
    | .timeout =>
      (false, some ("Timeout while trying to " ++ action ++ " " ++ serviceName))
    | .calledError stderr =>
      (false, some (if stderr ≠ "" then stderr.trim
                    else "Failed to " ++ action ++ " " ++ serviceName))
    | .exc msg => (false, some msg)
  (cmd, result)

/-- Rate limit NOTIFICATION_RATE_LIMIT of
`nyxapp/utils/constants.py`, in seconds. -/
def notificationRateLimit : ℚ := 30

/-- Rate-limiter state of `NotificationManager`: the wall-clock time of
the last emitted notification per service key (time is modelled by
exact rationals). -/
structure NotifState where
  lastNotification : List (String × ℚ)

/-- Lookup with default 0, as `self._last_notification.get(name, 0)`. -/
def NotifState.lastTime (st : NotifState) (serviceName : String) : ℚ :=
  match st.lastNotification.lookup serviceName with
  | some t => t
  | none => 0

/-- Embedding of `NotificationManager._should_notify` at current time
`now`. -/
def shouldNotify (st : NotifState) (serviceName : String) (now : ℚ) : Bool :=
  if now - st.lastTime serviceName < notificationRateLimit then false else true

/-- Embedding of `NotificationManager._update_notification_time`
(Python dict assignment; `List.lookup` finds the most recent entry, so
prepending implements overwrite). -/
def updateNotificationTime (st : NotifState) (serviceName : String)
    (now : ℚ) : NotifState :=
  { lastNotification := (serviceName, now) :: st.lastNotification }

/-- Common shape of `notify_service_started` / `_stopped` / `_failed`:
when the rate limiter allows it, a notification is sent and the last
notification time updated; the boolean reports whether one was
emitted. -/
def requestNotification (st : NotifState) (serviceName : String)
    (now : ℚ) : Bool × NotifState :=
  if shouldNotify st serviceName now then
    (true, updateNotificationTime st serviceName now)
  else
    (false, st)

/-- Notifications the poll loop can request. -/
inductive NotifKind where
  | started | stopped | failed
deriving DecidableEq

/-- Embedding of `NyxApp._notify_status_change`: the if/elif chain
selecting a started, stopped or failed notification for a significant
transition, or none. -/
def notifyStatusChange (oldStatus newStatus : ServiceStatus) :
    Option NotifKind :=
  if newStatus = .active ∧ oldStatus ≠ .active then some .started
  else if newStatus = .inactive ∧ oldStatus = .active then some .stopped
  else if newStatus = .failed then some .failed
  else none

/-- Per-service body of `NyxApp.update_all_services` for one poll tick:
given the cached status and the freshly queried one, the cache is
updated when they differ, and `_notify_status_change` is consulted only
then and only when the `show_notifications` setting is on.  The result
is the new cached status and the notification requested, if any. -/
def pollTickService (showNotifications : Bool)
    (cachedStatus newStatus : ServiceStatus) :
    ServiceStatus × Option NotifKind :=
  if cachedStatus ≠ newStatus then
    (newStatus,
     if showNotifications then notifyStatusChange cachedStatus newStatus
     else none)
  else
    (cachedStatus, none)

/-- Identity key of a service record. -/
def ServiceConfig.key (s : ServiceConfig) : String × String :=
  (s.name, s.service_type)

/-- Key-uniqueness invariant of the registry. -/
abbrev UniqKeys (l : List ServiceConfig) : Prop :=
  (l.map ServiceConfig.key).Nodup

/-- Members of the `ServiceStatus` enum in declaration order. -/
def statusMembers : List ServiceStatus :=
  [.active, .inactive, .failed, .activating, .deactivating, .unknown]

/-- Sample user-scoped service record used in concrete instantiations. -/
def svcAlpha : ServiceConfig :=
  { name := "alpha", display_name := "Alpha", icon := "icon-a",
    icon_light := none, icon_dark := none, service_type := "user",
    auto_start := false, enabled := true }

/-- Second sample record, key distinct from `svcAlpha`. -/
def svcBeta : ServiceConfig :=
  { name := "beta", display_name := "Beta", icon := "icon-b",
    icon_light := none, icon_dark := none, service_type := "user",
    auto_start := false, enabled := true }

/-- Registry whose cached passwordless setting is false, used against a
present rule file. -/
def c5Registry : Registry :=
  { services := [], settings := [("passwordless_mode", .ybool false)] }

/-- Documents failing the structural validation of `_validate_config`:
non-dict documents, and dicts whose services or settings field has the
wrong shape. -/
def notValidDoc (v : YVal) : Bool :=
  match v with
  | .ydict d => !validateDict d
  | _ => true

/-- Registry with two records on distinct keys. -/
def c2Registry : Registry := { services := [svcAlpha, svcBeta], settings := [] }

/-- Check that a key, when present, holds a string. -/
def strFieldOk (d : List (String × YVal)) (k : String) : Bool :=
  match dictGet d k with
  | none => true
  | some (.ystr _) => true
  | some _ => false

/-- Check that a key, when present, holds a string or null. -/
def optStrFieldOk (d : List (String × YVal)) (k : String) : Bool :=
  match dictGet d k with
  | none => true
  | some .ynull => true
  | some (.ystr _) => true
  | some _ => false

/-- Check that a key, when present, holds a boolean. -/
def boolFieldOk (d : List (String × YVal)) (k : String) : Bool :=
  match dictGet d k with
  | none => true
  | some (.ybool _) => true
  | some _ => false

/-- Service dicts whose present fields carry the types the dataclass
declares (all dicts the application itself writes are of this shape). -/
def wellTypedSvcDict (d : List (String × YVal)) : Bool :=
  strFieldOk d "display_name" && strFieldOk d "icon" &&
  optStrFieldOk d "icon_light" && optStrFieldOk d "icon_dark" &&
  strFieldOk d "service_type" && boolFieldOk d "auto_start" &&
  boolFieldOk d "enabled"

/-- Value of a string field with its `data.get` default. -/
def strFieldD (d : List (String × YVal)) (k : String) (dflt : String) : String :=
  match dictGet d k with
  | some (.ystr s) => s
  | _ => dflt

/-- Value of an optional string field. -/
def optStrField (d : List (String × YVal)) (k : String) : Option String :=
  match dictGet d k with
  | some (.ystr s) => some s
  | _ => none

/-- Value of a boolean field with its `data.get` default. -/
def boolFieldD (d : List (String × YVal)) (k : String) (dflt : Bool) : Bool :=
  match dictGet d k with
  | some (.ybool b) => b
  | _ => dflt

/-- Invariant every successfully constructed `ServiceConfig`
satisfies. -/
abbrev ValidServiceConfig (c : ServiceConfig) : Prop :=
  c.name ≠ "" ∧ (c.service_type = "user" ∨ c.service_type = "system") ∧
  c.display_name ≠ ""

/-- Record produced by constructing service pg with an empty display
name (the capitalized name is filled in). -/
def svcPg : ServiceConfig :=
  { name := "pg", display_name := "Pg", icon := "i",
    icon_light := none, icon_dark := none, service_type := "system",
    auto_start := false, enabled := true }

/-- Theme icon fields that `to_dict` serializes losslessly: absent, or
non-empty and different from the base icon. -/
def iconFieldNormalized (icon : String) : Option String → Bool
  | none => true
  | some v => !(v == "") && !(v == icon)

/-- Records that `to_dict`/`from_dict` round-trip: valid fields and
normalized theme icons. -/
def goodServiceB (s : ServiceConfig) : Bool :=
  !(s.name == "") && (s.service_type == "user" || s.service_type == "system") &&
  !(s.display_name == "") && iconFieldNormalized s.icon s.icon_light &&
  iconFieldNormalized s.icon s.icon_dark

/-- Registries whose records all round-trip and whose settings already
hold every default key. -/
def goodRegistryB (r : Registry) : Bool :=
  r.services.all goodServiceB &&
  defaultSettings.all (fun kv => dictHasKey r.settings kv.1)

/-- Mutations whose service argument, if any, round-trips. -/
def goodMutationB : Mutation → Bool
  | .add s => goodServiceB s
  | .update _ _ upd => goodServiceB upd
  | _ => true

/-- Valid record whose light theme icon equals its base icon. -/
def c1BadSvc : ServiceConfig :=
  { name := "alpha", display_name := "Alpha", icon := "i",
    icon_light := some "i", icon_dark := none, service_type := "user",
    auto_start := false, enabled := true }

/-- C3, counterexample.  The string ACTIVE is none of the six enum value
strings, yet `from_string` maps it to the ACTIVE member (the code
lowercases its argument before the enum value lookup), not to
UNKNOWN as the claim requires for strings outside the value set. -/
theorem c3_from_string_counterexample :
    ServiceStatus.fromString "ACTIVE" = ServiceStatus.active ∧
    "ACTIVE" ∉ (statusMembers.map ServiceStatus.value) := by
  constructor
  · decide
  · decide

/-- C3, amended.  The value lookup happens on the lowercased input:
`from_string` returns the first enum member whose value string equals
the lowercasing of the input, and UNKNOWN when no member value
matches. -/
theorem c3_from_string_lookup (s : String) :
    ServiceStatus.fromString s =
      (statusMembers.find? (fun m => m.value == pyLower s)).getD .unknown := by
  by_cases h1 : pyLower s = "active"
  · simp [ServiceStatus.fromString, statusMembers, List.find?, ServiceStatus.value, h1]
  · by_cases h2 : pyLower s = "inactive"
    · simp [ServiceStatus.fromString, statusMembers, List.find?, ServiceStatus.value, h2]
    · by_cases h3 : pyLower s = "failed"
      · simp [ServiceStatus.fromString, statusMembers, List.find?, ServiceStatus.value, h3]
      · by_cases h4 : pyLower s = "activating"
        · simp [ServiceStatus.fromString, statusMembers, List.find?, ServiceStatus.value, h4]
        · by_cases h5 : pyLower s = "deactivating"
          · simp [ServiceStatus.fromString, statusMembers, List.find?, ServiceStatus.value, h5]
          · by_cases h6 : pyLower s = "unknown"
            · simp [ServiceStatus.fromString, statusMembers, List.find?, ServiceStatus.value, h6]
            · have e1 : ("active" == pyLower s) = false :=
                beq_eq_false_iff_ne.mpr (fun hh => h1 hh.symm)
              have e2 : ("inactive" == pyLower s) = false :=
                beq_eq_false_iff_ne.mpr (fun hh => h2 hh.symm)
              have e3 : ("failed" == pyLower s) = false :=
                beq_eq_false_iff_ne.mpr (fun hh => h3 hh.symm)
              have e4 : ("activating" == pyLower s) = false :=
                beq_eq_false_iff_ne.mpr (fun hh => h4 hh.symm)
              have e5 : ("deactivating" == pyLower s) = false :=
                beq_eq_false_iff_ne.mpr (fun hh => h5 hh.symm)
              have e6 : ("unknown" == pyLower s) = false :=
                beq_eq_false_iff_ne.mpr (fun hh => h6 hh.symm)
              simp [ServiceStatus.fromString, statusMembers, List.find?, ServiceStatus.value,
                    e1, e2, e3, e4, e5, e6, h1, h2, h3, h4, h5, h6]

/-- C5, counterexample.  With the rule file present on disk but the
cached setting false, the query returns false: the cached settings
value wins, not the rule file presence as the claim states. -/
theorem c5_passwordless_counterexample :
    yFalsy (getSetting c5Registry "passwordless_mode" (.ybool false)) = true ∧
    isPasswordlessEnabled (some c5Registry) true = false := by
  constructor
  · rfl
  · rfl

/-- C5, amended.  When a config manager is supplied the result is the
truthiness of the cached `passwordless_mode` setting and is independent
of the rule file; the rule file presence decides only when no config
manager is available. -/
theorem c5_passwordless_authority (r : Registry) (fe1 fe2 : Bool) :
    isPasswordlessEnabled (some r) fe1 = isPasswordlessEnabled (some r) fe2 ∧
    (isPasswordlessEnabled (some r) fe1 = true ↔
      yFalsy (getSetting r "passwordless_mode" (.ybool false)) = false) ∧
    isPasswordlessEnabled none fe1 = fe1 := by
  refine ⟨rfl, ?_, rfl⟩
  simp [isPasswordlessEnabled]

/-- C6.  Adding a record whose `(name, service_type)` key is already
present returns false and leaves the registry unchanged. -/
theorem c6_add_duplicate_rejected (r : Registry) (s : ServiceConfig)
    (h : ∃ t ∈ r.services, t.name = s.name ∧ t.service_type = s.service_type) :
    addService r s = (false, r) := by
  unfold addService
  rw [if_pos]
  rw [List.any_eq_true]
  obtain ⟨t, ht, h1, h2⟩ := h
  exact ⟨t, ht, by simp [h1, h2]⟩

/-- C6, witness: a concrete duplicate add is rejected. -/
theorem c6_add_duplicate_rejected_witness :
    addService { services := [svcAlpha], settings := [] } svcAlpha =
      (false, { services := [svcAlpha], settings := [] }) :=
  c6_add_duplicate_rejected _ svcAlpha ⟨svcAlpha, by simp, rfl, rfl⟩

/-- C7.  Once a notification for a key is emitted at time `t`, a request
for the same key strictly inside the window after `t` is suppressed and
leaves the limiter state unchanged, and a request at least the window
after `t` emits again. -/
theorem c7_rate_limiter (st : NotifState) (serviceName : String) (t t2 : ℚ)
    (hEmit : (requestNotification st serviceName t).1 = true) :
    (t2 - t < notificationRateLimit →
      requestNotification (requestNotification st serviceName t).2 serviceName t2 =
        (false, (requestNotification st serviceName t).2)) ∧
    (notificationRateLimit ≤ t2 - t →
      (requestNotification (requestNotification st serviceName t).2 serviceName t2).1 = true) := by
  have hs : shouldNotify st serviceName t = true := by
    by_cases hc : shouldNotify st serviceName t
    · exact hc
    · simp [requestNotification, hc] at hEmit
  have h2 : (requestNotification st serviceName t).2 =
      updateNotificationTime st serviceName t := by
    simp [requestNotification, hs]
  have hlast : (updateNotificationTime st serviceName t).lastTime serviceName = t := by
    simp [updateNotificationTime, NotifState.lastTime, List.lookup]
  rw [h2]
  constructor
  · intro hlt
    simp [requestNotification, shouldNotify, hlast, hlt]
  · intro hge
    simp [requestNotification, shouldNotify, hlast, not_lt.mpr hge]

/-- C7, witness: after an emission at time 100, a request at 110 is
suppressed and one at 130 emits. -/
theorem c7_rate_limiter_witness :
    requestNotification (requestNotification ⟨[]⟩ "svc" 100).2 "svc" 110 =
      (false, (requestNotification ⟨[]⟩ "svc" 100).2) ∧
    (requestNotification (requestNotification ⟨[]⟩ "svc" 100).2 "svc" 130).1 = true := by
  have hEmit : (requestNotification ⟨[]⟩ "svc" 100).1 = true := by
    simp [requestNotification, shouldNotify, NotifState.lastTime, List.lookup,
          notificationRateLimit]
    norm_num
  exact ⟨(c7_rate_limiter ⟨[]⟩ "svc" 100 110 hEmit).1 (by norm_num [notificationRateLimit]),
         (c7_rate_limiter ⟨[]⟩ "svc" 100 130 hEmit).2 (by norm_num [notificationRateLimit])⟩

/-- C8, counterexample.  With the `show_notifications` setting off, the
transition inactive to active matches the started pattern yet the poll
tick requests no notification, against the claim that a notification is
requested exactly when the transition matches. -/
theorem c8_poll_counterexample :
    notifyStatusChange .inactive .active = some .started ∧
    pollTickService false .inactive .active = (.active, none) := by
  decide

/-- C8, amended.  On a poll tick with notifications enabled in
settings, a changed status always updates the cache to the new value
and a notification is requested exactly for the transitions to active
from non-active, active to inactive, and to failed; inactive to active
yields exactly the single started notification. -/
theorem c8_poll_transition (cached new : ServiceStatus) (h : cached ≠ new) :
    (pollTickService true cached new).1 = new ∧
    ((pollTickService true cached new).2 ≠ none ↔
      ((new = .active ∧ cached ≠ .active) ∨ (cached = .active ∧ new = .inactive) ∨
        new = .failed)) ∧
    pollTickService true .inactive .active = (.active, some .started) := by
  cases cached <;> cases new <;> first | exact absurd rfl h | decide

/-- C8, witness: the inactive-to-active tick updates the cache and
requests one started notification. -/
theorem c8_poll_transition_witness :
    pollTickService true .inactive .active = (.active, some .started) :=
  (c8_poll_transition ServiceStatus.inactive ServiceStatus.active (by decide)).2.2

/-- C9.  A config file that fails parsing, parses to a falsy document,
or fails structural validation makes `load_config` return failure with
an empty services list and settings equal to the built-in default
map. -/
theorem c9_load_defaults (p : ParseOutcome)
    (h : p = .yamlError ∨
      ∃ v, p = .value v ∧ (yFalsy v = true ∨ notValidDoc v = true)) :
    loadConfig p = (false, { services := [], settings := defaultSettings }) := by
  have hdef : defaultRegistry = { services := [], settings := defaultSettings } := by
    rfl
  rcases h with h | ⟨v, rfl, hv⟩
  · rw [h]
    simp [loadConfig, hdef]
  · rcases hv with hf | hnv
    · simp [loadConfig, hf, hdef]
    · by_cases hf : yFalsy v = true
      · simp [loadConfig, hf, hdef]
      · cases v with
        | ydict d =>
          have : validateDict d = false := by
            simpa [notValidDoc] using hnv
          simp [loadConfig, hf, hdef, this]
        | ynull => simp [loadConfig, hf, hdef]
        | ybool b => simp [loadConfig, hf, hdef]
        | yint n => simp [loadConfig, hf, hdef]
        | ystr s => simp [loadConfig, hf, hdef]
        | ylist l => simp [loadConfig, hf, hdef]

/-- C9, witness: a document whose services field is a string fails
validation and loads the defaults with failure. -/
theorem c9_load_defaults_witness :
    loadConfig (.value (.ydict [("services", .ystr "x")])) =
      (false, { services := [], settings := defaultSettings }) :=
  c9_load_defaults _ (Or.inr ⟨_, rfl, Or.inr (by decide)⟩)

/-- Distinct error texts: the timeout message never coincides with the
default failure message of the same action and unit (their fixed parts
have different lengths). -/
theorem timeoutMsg_ne_failMsg (action serviceName : String) :
    "Timeout while trying to " ++ action ++ " " ++ serviceName ≠
      "Failed to " ++ action ++ " " ++ serviceName := by
  intro h
  have hl := congrArg String.length h
  simp only [String.length_append] at hl
  have e1 : "Timeout while trying to ".length = 24 := rfl
  have e2 : "Failed to ".length = 10 := rfl
  rw [e1, e2] at hl
  omega

/-- C4.  The elevation tool is prepended exactly for system-scoped
services without an active passwordless exemption; user-scoped services
run plain `systemctl --user`; a timeout yields failure with the timeout
text and a non-zero exit yields failure, the two default texts being
distinct. -/
theorem c4_privilege_elevation (action serviceName : String)
    (isUserService : Bool) (cfg : Option Registry) (ruleFileExists : Bool)
    (outcome : RunOutcome) :
    ((executeSystemctlAction action serviceName isUserService cfg
        ruleFileExists outcome).1.head? = some "pkexec" ↔
      (isUserService = false ∧
        isPasswordlessEnabled cfg ruleFileExists = false)) ∧
    (isUserService = true →
      (executeSystemctlAction action serviceName isUserService cfg
        ruleFileExists outcome).1 = ["systemctl", "--user", action, serviceName]) ∧
    (outcome = .timeout →
      (executeSystemctlAction action serviceName isUserService cfg
        ruleFileExists outcome).2 =
        (false, some ("Timeout while trying to " ++ action ++ " " ++ serviceName))) ∧
    (∀ stderr, outcome = .calledError stderr →
      (executeSystemctlAction action serviceName isUserService cfg
        ruleFileExists outcome).2.1 = false) ∧
    ("Timeout while trying to " ++ action ++ " " ++ serviceName ≠
      "Failed to " ++ action ++ " " ++ serviceName) := by
  refine ⟨?_, ?_, ?_, ?_, timeoutMsg_ne_failMsg action serviceName⟩
  · rcases hb : isPasswordlessEnabled cfg ruleFileExists <;> cases isUserService <;>
      simp [executeSystemctlAction, hb]
  · intro hu
    subst hu
    simp [executeSystemctlAction]
  · intro ho
    subst ho
    simp [executeSystemctlAction]
  · intro stderr ho
    subst ho
    simp [executeSystemctlAction]

/-- C4, witness: a system-scoped start without exemption is elevated,
and a concrete timeout yields failure with the timeout text. -/
theorem c4_privilege_elevation_witness :
    ((executeSystemctlAction "start" "nginx" false none false .timeout).1.head? =
      some "pkexec") ∧
    (executeSystemctlAction "start" "nginx" false none false .timeout).2 =
      (false, some "Timeout while trying to start nginx") ∧
    (executeSystemctlAction "start" "nginx" false none false
      (.calledError "boom")).2.1 = false := by
  have h := c4_privilege_elevation "start" "nginx" false none false .timeout
  have h2 := c4_privilege_elevation "start" "nginx" false none false
    (.calledError "boom")
  exact ⟨h.1.mpr ⟨rfl, rfl⟩, h.2.2.1 rfl, h2.2.2.2.1 "boom" rfl⟩

/-- Elements of the list after `replaceFirst` are the replacement or
old elements. -/
theorem replaceFirst_mem (l : List ServiceConfig) (n t : String)
    (upd : ServiceConfig) :
    ∀ x ∈ (replaceFirst l n t upd).2, x = upd ∨ x ∈ l := by
  induction l with
  | nil => intro x hx; simp [replaceFirst] at hx
  | cons s rest ih =>
    intro x hx
    cases hc : (s.name == n && s.service_type == t) <;>
      simp only [replaceFirst, hc, if_true, if_false, Bool.false_eq_true,
        Bool.true_eq_false, ite_true, ite_false] at hx
    · rcases List.mem_cons.mp hx with rfl | hx2
      · exact Or.inr (List.mem_cons_self _ _)
      · rcases ih x hx2 with h1 | h1
        · exact Or.inl h1
        · exact Or.inr (List.mem_cons_of_mem _ h1)
    · rcases List.mem_cons.mp hx with rfl | hx2
      · exact Or.inl rfl
      · exact Or.inr (List.mem_cons_of_mem _ hx2)

/-- Replacement of the first match preserves key uniqueness when the
new key is the replaced key or fresh. -/
theorem replaceFirst_nodup (l : List ServiceConfig) (n t : String)
    (upd : ServiceConfig) (h : (l.map ServiceConfig.key).Nodup)
    (hkey : upd.key = (n, t) ∨ upd.key ∉ l.map ServiceConfig.key) :
    ((replaceFirst l n t upd).2.map ServiceConfig.key).Nodup := by
  induction l with
  | nil => simp [replaceFirst]
  | cons s rest ih =>
    simp only [List.map_cons, List.nodup_cons] at h
    obtain ⟨hs, hrest⟩ := h
    cases hc : (s.name == n && s.service_type == t) <;>
      simp only [replaceFirst, hc, Bool.false_eq_true, Bool.true_eq_false,
        ite_true, ite_false, if_true, if_false]
    · have hrec : ((replaceFirst rest n t upd).2.map ServiceConfig.key).Nodup := by
        apply ih hrest
        rcases hkey with hk | hk
        · exact Or.inl hk
        · exact Or.inr (fun hmem => hk (by simp [hmem]))
      have hskey : s.key ≠ (n, t) := by
        intro hkeq
        have h1 : s.name = n := congrArg Prod.fst hkeq
        have h2 : s.service_type = t := congrArg Prod.snd hkeq
        simp [h1, h2] at hc
      simp only [List.map_cons, List.nodup_cons]
      refine ⟨?_, hrec⟩
      intro hmem
      obtain ⟨y, hy, hyk⟩ := List.mem_map.mp hmem
      rcases replaceFirst_mem rest n t upd y hy with rfl | hyr
      · rcases hkey with hk | hk
        · exact hskey (hyk ▸ hk)
        · exact hk (by simp [hyk])
      · exact hs (List.mem_map.mpr ⟨y, hyr, hyk⟩)
    · have hmatch : s.name = n ∧ s.service_type = t := by
        have := hc
        simp only [Bool.and_eq_true, beq_iff_eq] at this
        exact this
      simp only [List.map_cons, List.nodup_cons]
      refine ⟨?_, hrest⟩
      rcases hkey with hk | hk
      · intro hmem
        apply hs
        have : upd.key = s.key := by
          rw [hk, ServiceConfig.key, hmatch.1, hmatch.2]
        exact this ▸ hmem
      · intro hmem
        exact hk (List.mem_cons_of_mem _ hmem)

/-- C2, counterexample.  Starting from a registry with distinct keys,
`update_service` installs a record whose key duplicates that of another
existing record, so the uniqueness invariant is not preserved by every
mutation. -/
theorem c2_update_counterexample :
    UniqKeys c2Registry.services ∧
    ¬ UniqKeys (updateService c2Registry "alpha" "user" svcBeta).2.services := by
  constructor
  · decide
  · decide

/-- C2, amended.  Key uniqueness is preserved by `add_service` and
`remove_service` unconditionally, and by `update_service` whenever the
updated record keeps the old key or carries a key not already in the
registry. -/
theorem c2_key_uniqueness (r : Registry) (h : UniqKeys r.services) :
    (∀ s, UniqKeys (addService r s).2.services) ∧
    (∀ n t, UniqKeys (removeService r n t).2.services) ∧
    (∀ n t upd, (upd.key = (n, t) ∨ upd.key ∉ r.services.map ServiceConfig.key) →
      UniqKeys (updateService r n t upd).2.services) := by
  refine ⟨?_, ?_, ?_⟩
  · intro s
    unfold addService
    cases hc : r.services.any
        (fun t => t.name == s.name && t.service_type == s.service_type) <;>
      simp only [hc, Bool.false_eq_true, Bool.true_eq_false, ite_true,
        ite_false, if_true, if_false]
    · have hfresh : s.key ∉ r.services.map ServiceConfig.key := by
        intro hmem
        obtain ⟨y, hy, hyk⟩ := List.mem_map.mp hmem
        have h1 : y.name = s.name := congrArg Prod.fst hyk
        have h2 : y.service_type = s.service_type := congrArg Prod.snd hyk
        have : r.services.any
            (fun t => t.name == s.name && t.service_type == s.service_type) = true :=
          List.any_eq_true.mpr ⟨y, hy, by simp [h1, h2]⟩
        rw [hc] at this
        exact Bool.false_ne_true this
      unfold UniqKeys
      rw [List.map_append, List.nodup_append]
      refine ⟨h, List.nodup_singleton _, ?_⟩
      intro a ha hb
      simp only [List.map_cons, List.map_nil, List.mem_singleton] at hb
      exact hfresh (hb ▸ ha)
    · exact h
  · intro n t
    unfold removeService UniqKeys
    exact h.sublist (List.Sublist.map _ (List.filter_sublist _))
  · intro n t upd hkey
    exact replaceFirst_nodup r.services n t upd h hkey

/-- C2, witness: an update keeping the old key preserves uniqueness on
a concrete two-record registry. -/
theorem c2_key_uniqueness_witness :
    UniqKeys (updateService c2Registry "alpha" "user"
      { svcAlpha with icon := "icon-x" }).2.services :=
  (c2_key_uniqueness c2Registry (by decide)).2.2 "alpha" "user" _ (Or.inl rfl)

/-- On a well-typed string field, `getStrD` succeeds with the field
value. -/
theorem getStrD_ok (d : List (String × YVal)) (k : String) (dflt : String)
    (h : strFieldOk d k = true) :
    getStrD d k dflt = .ok (strFieldD d k dflt) := by
  unfold strFieldOk at h
  unfold getStrD strFieldD
  cases hd : dictGet d k with
  | none => simp [hd]
  | some v =>
    rw [hd] at h
    cases v <;> simp_all

/-- On a well-typed optional string field, `getOptStr` succeeds with
the field value. -/
theorem getOptStr_ok (d : List (String × YVal)) (k : String)
    (h : optStrFieldOk d k = true) :
    getOptStr d k = .ok (optStrField d k) := by
  unfold optStrFieldOk at h
  unfold getOptStr optStrField
  cases hd : dictGet d k with
  | none => simp [hd]
  | some v =>
    rw [hd] at h
    cases v <;> simp_all

/-- On a well-typed boolean field, `getBoolD` succeeds with the field
value. -/
theorem getBoolD_ok (d : List (String × YVal)) (k : String) (dflt : Bool)
    (h : boolFieldOk d k = true) :
    getBoolD d k dflt = .ok (boolFieldD d k dflt) := by
  unfold boolFieldOk at h
  unfold getBoolD boolFieldD
  cases hd : dictGet d k with
  | none => simp [hd]
  | some v =>
    rw [hd] at h
    cases v <;> simp_all

/-- On a well-typed dict with a string name, `from_dict` is the
constructor applied to the extracted fields. -/
theorem fromDict_eq_mk (d : List (String × YVal)) (n : String)
    (hn : dictGet d "name" = some (.ystr n))
    (hwt : wellTypedSvcDict d = true) :
    ServiceConfig.fromDict d =
      mkServiceConfig n (strFieldD d "display_name" (pyCapitalize n))
        (strFieldD d "icon" "application-x-executable")
        (optStrField d "icon_light") (optStrField d "icon_dark")
        (strFieldD d "service_type" "user")
        (boolFieldD d "auto_start" false) (boolFieldD d "enabled" true) := by
  have h := hwt
  unfold wellTypedSvcDict at h
  simp only [Bool.and_eq_true] at h
  obtain ⟨⟨⟨⟨⟨⟨h1, h2⟩, h3⟩, h4⟩, h5⟩, h6⟩, h7⟩ := h
  unfold ServiceConfig.fromDict
  simp only [hn]
  rw [getStrD_ok d "display_name" (pyCapitalize n) h1,
      getStrD_ok d "icon" "application-x-executable" h2,
      getOptStr_ok d "icon_light" h3,
      getOptStr_ok d "icon_dark" h4,
      getStrD_ok d "service_type" "user" h5,
      getBoolD_ok d "auto_start" false h6,
      getBoolD_ok d "enabled" true h7]
  rfl

/-- Capitalizing a non-empty string yields a non-empty string. -/
theorem pyCapitalize_ne_empty (s : String) (h : s ≠ "") :
    pyCapitalize s ≠ "" := by
  unfold pyCapitalize
  cases s with
  | mk data =>
    cases data with
    | nil => exact absurd rfl h
    | cons c cs =>
      intro hc
      exact List.cons_ne_nil _ _ (congrArg String.data hc)

/-- Specification of the validating constructor: a `ValueError` exactly
for an empty name or a bad service type, and every success satisfies
the invariant. -/
theorem mkServiceConfig_spec (n dn ic : String) (il idk : Option String)
    (st : String) (au en : Bool) :
    ((∃ e, mkServiceConfig n dn ic il idk st au en = .error (.valueError e)) ↔
      (n = "" ∨ ¬(st = "user" ∨ st = "system"))) ∧
    (∀ c, mkServiceConfig n dn ic il idk st au en = .ok c →
      ValidServiceConfig c) := by
  unfold mkServiceConfig
  by_cases h1 : n = ""
  · simp [h1]
  · by_cases h2 : st = "user" ∨ st = "system"
    · rw [if_neg h1, if_pos h2]
      refine ⟨by simp [h1, h2], ?_⟩
      intro c hc
      injection hc with hch
      rw [← hch]
      refine ⟨h1, h2, ?_⟩
      by_cases hd : dn = ""
      · simp only [hd, ite_true]
        exact pyCapitalize_ne_empty n h1
      · simp only [hd, ite_false]
        simpa using hd
    · simp [h1, h2]

/-- C10.  Construction of a `ServiceConfig`, directly or via
`from_dict` on a well-typed dict with a string name, raises `ValueError`
exactly when the name is empty or the service type is neither user nor
system, and every constructed record has a non-empty name, a user or
system type and a non-empty display name. -/
theorem c10_construction_validation (n dn ic : String)
    (il idk : Option String) (st : String) (au en : Bool)
    (d : List (String × YVal)) (m : String)
    (hname : dictGet d "name" = some (.ystr m))
    (hwt : wellTypedSvcDict d = true) :
    ((∃ e, mkServiceConfig n dn ic il idk st au en = .error (.valueError e)) ↔
      (n = "" ∨ ¬(st = "user" ∨ st = "system"))) ∧
    (∀ c, mkServiceConfig n dn ic il idk st au en = .ok c →
      ValidServiceConfig c) ∧
    ((∃ e, ServiceConfig.fromDict d = .error (.valueError e)) ↔
      (m = "" ∨ ¬(strFieldD d "service_type" "user" = "user" ∨
                  strFieldD d "service_type" "user" = "system"))) ∧
    (∀ c, ServiceConfig.fromDict d = .ok c → ValidServiceConfig c) := by
  have hmk := mkServiceConfig_spec n dn ic il idk st au en
  have hfd := fromDict_eq_mk d m hname hwt
  have hmk2 := mkServiceConfig_spec m (strFieldD d "display_name" (pyCapitalize m))
    (strFieldD d "icon" "application-x-executable")
    (optStrField d "icon_light") (optStrField d "icon_dark")
    (strFieldD d "service_type" "user")
    (boolFieldD d "auto_start" false) (boolFieldD d "enabled" true)
  refine ⟨hmk.1, hmk.2, ?_, ?_⟩
  · rw [hfd]; exact hmk2.1
  · rw [hfd]; exact hmk2.2

/-- C10, witness: a system service built with an empty display name is
valid, the display name defaulted from the capitalized name. -/
theorem c10_construction_validation_witness : ValidServiceConfig svcPg := by
  have h := c10_construction_validation "pg" "" "i" none none "system" false true
    [("name", .ystr "pg")] "pg" rfl (by decide)
  exact h.2.1 svcPg rfl

/-- Round trip of one record through serialization: on normalized valid
records, `from_dict` of `to_dict` restores the record exactly. -/
theorem fromDict_toDict (s : ServiceConfig) (h : goodServiceB s = true) :
    ServiceConfig.fromDict s.toDict = .ok s := by
  obtain ⟨n, dn, ic, il, idk, st, au, en⟩ := s
  simp only [goodServiceB, Bool.and_eq_true, Bool.or_eq_true, Bool.not_eq_true',
    beq_eq_false_iff_ne, beq_iff_eq] at h
  obtain ⟨⟨⟨⟨hn, hst⟩, hdn⟩, hil⟩, hidk⟩ := h
  cases il with
  | none =>
    cases idk with
    | none =>
      rcases hst with h2 | h2 <;> subst h2 <;>
        simp [ServiceConfig.toDict, ServiceConfig.fromDict, dictGet, getStrD,
          getOptStr, getBoolD, mkServiceConfig, Bind.bind, Except.bind, hn, hdn]
    | some w =>
      simp only [iconFieldNormalized, Bool.and_eq_true, Bool.not_eq_true',
        beq_eq_false_iff_ne] at hidk
      rcases hst with h2 | h2 <;> subst h2 <;>
        simp [ServiceConfig.toDict, ServiceConfig.fromDict, dictGet, getStrD,
          getOptStr, getBoolD, mkServiceConfig, Bind.bind, Except.bind, hn, hdn,
          hidk.1, hidk.2]
  | some v =>
    simp only [iconFieldNormalized, Bool.and_eq_true, Bool.not_eq_true',
      beq_eq_false_iff_ne] at hil
    cases idk with
    | none =>
      rcases hst with h2 | h2 <;> subst h2 <;>
        simp [ServiceConfig.toDict, ServiceConfig.fromDict, dictGet, getStrD,
          getOptStr, getBoolD, mkServiceConfig, Bind.bind, Except.bind, hn, hdn,
          hil.1, hil.2]
    | some w =>
      simp only [iconFieldNormalized, Bool.and_eq_true, Bool.not_eq_true',
        beq_eq_false_iff_ne] at hidk
      rcases hst with h2 | h2 <;> subst h2 <;>
        simp [ServiceConfig.toDict, ServiceConfig.fromDict, dictGet, getStrD,
          getOptStr, getBoolD, mkServiceConfig, Bind.bind, Except.bind, hn, hdn,
          hil.1, hil.2, hidk.1, hidk.2]

/-- Settings already holding every default key pass through
`_ensure_default_settings` unchanged. -/
theorem ensureDefaults_id (st : List (String × YVal))
    (h : ∀ kv ∈ defaultSettings, dictHasKey st kv.1 = true) :
    ensureDefaultSettings st = st := by
  have h1 := h ("update_interval", .yint 5) (by simp [defaultSettings])
  have h2 := h ("show_notifications", .ybool true) (by simp [defaultSettings])
  have h3 := h ("minimize_to_tray", .ybool false) (by simp [defaultSettings])
  have h4 := h ("passwordless_mode", .ybool false) (by simp [defaultSettings])
  have h5 := h ("show_main_tray", .ybool true) (by simp [defaultSettings])
  simp [ensureDefaultSettings, defaultSettings, h1, h2, h3, h4, h5]

/-- Serialization and reload of the services list restores it when
every record round-trips. -/
theorem filterMap_roundtrip (l : List ServiceConfig)
    (h : ∀ s ∈ l, goodServiceB s = true) :
    l.filterMap ((fun e => (svcFromYVal e).toOption) ∘
      fun s => YVal.ydict s.toDict) = l := by
  induction l with
  | nil => rfl
  | cons s rest ih =>
    have hs := fromDict_toDict s (h s (List.mem_cons_self _ _))
    have hhead : ((fun e => (svcFromYVal e).toOption) ∘
        fun s => YVal.ydict s.toDict) s = some s := by
      simp [svcFromYVal, hs, Except.toOption]
    simp only [List.filterMap_cons, hhead]
    rw [ih (fun x hx => h x (List.mem_cons_of_mem _ hx))]

/-- Assignment in the settings dict never removes a key. -/
theorem dictSet_hasKey (st : List (String × YVal)) (k key : String) (v : YVal)
    (h : dictHasKey st key = true) :
    dictHasKey (dictSet st k v) key = true := by
  induction st with
  | nil => simp [dictHasKey] at h
  | cons p rest ih =>
    obtain ⟨k0, w0⟩ := p
    simp only [dictHasKey, Bool.or_eq_true] at h
    by_cases hk : k0 = k
    · subst hk
      simp only [dictSet, if_pos rfl, dictHasKey, Bool.or_eq_true]
      exact h
    · simp only [dictSet, if_neg hk, dictHasKey, Bool.or_eq_true]
      rcases h with h | h
      · exact Or.inl h
      · exact Or.inr (ih h)

/-- Every mutation with a round-tripping argument preserves the
round-trip conditions of the registry. -/
theorem goodRegistry_mutation (r : Registry) (m : Mutation)
    (hr : goodRegistryB r = true) (hm : goodMutationB m = true) :
    goodRegistryB (applyMutation m r) = true := by
  simp only [goodRegistryB, Bool.and_eq_true, List.all_eq_true] at hr
  obtain ⟨hsv, hset⟩ := hr
  cases m with
  | add s =>
    simp only [goodMutationB] at hm
    simp only [applyMutation, addService]
    by_cases hc : r.services.any
        (fun t => t.name == s.name && t.service_type == s.service_type) = true
    · simp only [hc, ite_true, goodRegistryB, Bool.and_eq_true, List.all_eq_true]
      exact ⟨hsv, hset⟩
    · simp only [hc, ite_false, goodRegistryB, Bool.and_eq_true,
        List.all_eq_true, Bool.not_eq_true] at *
      refine ⟨?_, hset⟩
      intro x hx
      rcases List.mem_append.mp hx with hx | hx
      · exact hsv x hx
      · rw [List.mem_singleton.mp hx]; exact hm
  | remove n t =>
    simp only [applyMutation, removeService, goodRegistryB, Bool.and_eq_true,
      List.all_eq_true]
    refine ⟨?_, hset⟩
    intro x hx
    exact hsv x (List.mem_of_mem_filter hx)
  | update n t upd =>
    simp only [goodMutationB] at hm
    simp only [applyMutation, updateService, goodRegistryB, Bool.and_eq_true,
      List.all_eq_true]
    refine ⟨?_, hset⟩
    intro x hx
    rcases replaceFirst_mem r.services n t upd x hx with rfl | hx2
    · exact hm
    · exact hsv x hx2
  | set k v =>
    simp only [applyMutation, setSetting, goodRegistryB, Bool.and_eq_true,
      List.all_eq_true]
    refine ⟨hsv, ?_⟩
    intro kv hkv
    exact dictSet_hasKey r.settings k kv.1 v (hset kv hkv)

/-- Saving and reloading restores any registry meeting the round-trip
conditions. -/
theorem loadConfig_saveConfig (r : Registry) (hr : goodRegistryB r = true) :
    loadConfig (.value (saveConfig r)) = (true, r) := by
  simp only [goodRegistryB, Bool.and_eq_true, List.all_eq_true] at hr
  obtain ⟨hsv, hset⟩ := hr
  simp [loadConfig, saveConfig, yFalsy, validateDict, dictGet]
  rw [filterMap_roundtrip r.services hsv, ensureDefaults_id r.settings hset]

/-- C1, amended.  After any mutation whose service argument is valid
with normalized theme icons, applied to a registry of such records
whose settings hold all default keys, saving and reloading yields
exactly the in-memory registry.  (Unnormalized theme icons are dropped
by `to_dict`, and missing default settings keys are added on load, so
the restriction is necessary.) -/
theorem c1_persistence_round_trip (r : Registry) (m : Mutation)
    (hr : goodRegistryB r = true) (hm : goodMutationB m = true) :
    loadConfig (.value (saveConfig (applyMutation m r))) =
      (true, applyMutation m r) :=
  loadConfig_saveConfig _ (goodRegistry_mutation r m hr hm)

/-- C1, witness: adding a service to the default registry and saving
then reloading restores the mutated registry. -/
theorem c1_persistence_round_trip_witness :
    loadConfig (.value (saveConfig (applyMutation (.add svcAlpha) defaultRegistry))) =
      (true, applyMutation (.add svcAlpha) defaultRegistry) :=
  c1_persistence_round_trip defaultRegistry (.add svcAlpha) (by decide) (by decide)

/-- C1, counterexample.  A valid record whose light theme icon equals
the base icon does not survive the dict round trip: `to_dict` omits the
icon and `from_dict` restores it as absent, so
`from_dict(to_dict(s)) = s` fails for this valid `ServiceConfig`. -/
theorem c1_roundtrip_counterexample :
    mkServiceConfig "alpha" "Alpha" "i" (some "i") none "user" false true =
      .ok c1BadSvc ∧
    ServiceConfig.fromDict c1BadSvc.toDict =
      .ok { c1BadSvc with icon_light := none } ∧
    ({ c1BadSvc with icon_light := none } : ServiceConfig) ≠ c1BadSvc := by
  refine ⟨rfl, rfl, by decide⟩

end Nyx
